import Mathlib

/-!
Verification of the cookie_store repository core: a shallow embedding of the
Cookie data model, validated construction, matching predicates, expiration
policy and the indexed cookie store, with theorems checking the
natural-language specification against the code.

Embedding conventions:
* Instants are modelled as `Int` seconds since the Unix epoch; the spec
  identifies the earliest representable instant with the epoch
  (its `expire()` description: sets `expires` to `AtUtc(epoch)`, the earliest
  representable instant), so `epochInstant = 0` and an ambient "now" is any
  instant `0 ≤ now`.
* Request URLs are modelled as an already-parsed record `{scheme, host, path}`
  with canonical (lowercase) scheme and host, mirroring the `url` crate's
  normalization; `host = none` models a non-relative-scheme URL with no
  determinable host.
* IDNA normalization is an external collaborator (spec section 1); it is
  modelled as the identity on already-canonical lowercase strings.
-/

instance {ε α : Type _} [DecidableEq ε] [DecidableEq α] : DecidableEq (Except ε α) :=
  fun x y =>
    match x, y with
    | .ok a, .ok b =>
      if h : a = b then .isTrue (by rw [h]) else .isFalse (fun hc => h (Except.ok.inj hc))
    | .ok _, .error _ => .isFalse (fun hc => Except.noConfusion hc)
    | .error _, .ok _ => .isFalse (fun hc => Except.noConfusion hc)
    | .error a, .error b =>
      if h : a = b then .isTrue (by rw [h]) else .isFalse (fun hc => h (Except.error.inj hc))

/-- Whether the first list begins with the second (character-level begins-with
test, used to keep string predicates kernel-reducible). -/
def charsBeginWith : List Char → List Char → Bool
  | _, [] => true
  | [], _ :: _ => false
  | c :: cs, p :: ps => c == p && charsBeginWith cs ps

/-- `s` begins with `p`. -/
def strBeginsWith (s p : String) : Bool :=
  charsBeginWith s.toList p.toList

/-- `s` ends with `p`. -/
def strEndsWith (s p : String) : Bool :=
  charsBeginWith s.toList.reverse p.toList.reverse

/-- Drop the first `n` characters of `s`. -/
def strDrop (s : String) (n : Nat) : String :=
  String.mk (s.toList.drop n)

/-- Character count of `s`. -/
def strLen (s : String) : Nat :=
  s.toList.length

/-- Lowercase every character of `s`. -/
def strLower (s : String) : String :=
  String.mk (s.toList.map Char.toLower)

/-- A parsed request URL as consumed by the cookie code: scheme, optional
canonical host, and path. -/
structure Url where
  scheme : String
  host : Option String
  path : String
deriving DecidableEq, Repr

/-- Modelled from the spec: `utils::is_http_scheme` (module `utils` is not in
the sources); the request scheme is HTTP-family iff it is `http` or `https`. -/
def is_http_scheme (u : Url) : Bool :=
  u.scheme == "http" || u.scheme == "https"

/-- Modelled from the spec: `utils::is_secure` (module `utils` is not in the
sources); the request scheme is secure iff it is `https`. -/
def is_secure (u : Url) : Bool :=
  u.scheme == "https"

/-- The attribute set produced by the external attribute parser (the `cookie`
crate), per spec section 6: name, value, optional domain/path strings,
optional max-age (signed seconds) and expires (absolute instant), and the
secure / http-only flags (`Option Bool` mirroring the crate's accessors). -/
structure RawCookie where
  name : String
  value : String
  domain : Option String
  path : Option String
  max_age : Option Int
  expires : Option Int
  secure : Option Bool
  http_only : Option Bool
deriving DecidableEq, Repr

/-- The error taxonomy of `cookie::Error` (src/cookie.rs). -/
inductive CookieError where
  | NonHttpScheme
  | NonRelativeScheme
  | DomainMismatch
  | Expired
  | Parse
  | PublicSuffix
  | UnspecifiedDomain
deriving DecidableEq, Repr

/-- Modelled from the spec: the `CookieDomain` sum type (module
`cookie_domain` is not in the sources). `HostOnly` scopes to exactly one
host, `Suffix` to a domain and its subdomains; `Empty` and `NotPresent`
record an empty or absent Domain attribute (src/cookie.rs mentions both in
`Error::UnspecifiedDomain`). -/
inductive CookieDomain where
  | HostOnly (host : String)
  | Suffix (domain : String)
  | Empty
  | NotPresent
deriving DecidableEq, Repr

/-- Modelled from the spec: a numeric IP literal host (an IPv4-style
all-digits-and-dots string, or an IPv6 literal containing a colon), which the
domain-match rule excludes from suffix matching. -/
def is_ip_literal (host : String) : Bool :=
  host.toList.contains ':'
    || (!host.isEmpty && host.toList.all (fun c => c.isDigit || c == '.'))

/-- Modelled from the spec (section 4.2): `domain_match(cookie_domain,
request_host)` is true iff the strings are equal, or `request_host` ends with
`cookie_domain` with a separator immediately before the suffix (encoded as
ending with `"." ++ cookie_domain`) and `request_host` is not a numeric IP
literal. -/
def domain_match (cookie_domain request_host : String) : Bool :=
  cookie_domain == request_host
    || (strEndsWith request_host (String.mk ('.' :: cookie_domain.toList))
          && !is_ip_literal request_host)

/-- Modelled from the spec (section 4.2): canonicalize an attribute-supplied
domain: strip exactly one leading separator, lowercase (IDNA normalization is
external and modelled as the identity). -/
def canonicalize_domain_attr (d : String) : String :=
  strLower (if strBeginsWith d "." then strDrop d 1 else d)

/-- Modelled from the spec: `CookieDomain::try_from(&RawCookie)` (module
`cookie_domain` is not in the sources): an absent Domain attribute gives
`NotPresent`, an empty one gives `Empty`, otherwise the canonicalized value
as `Suffix`. -/
def CookieDomain.try_from (raw : RawCookie) : Except Unit CookieDomain :=
  match raw.domain with
  | none => .ok .NotPresent
  | some d => if d == "" then .ok .Empty else .ok (.Suffix (canonicalize_domain_attr d))

/-- Modelled from the spec: `CookieDomain::matches` (module `cookie_domain`
is not in the sources): `HostOnly` matches exactly its host, `Suffix` uses
`domain_match`; no determinable host, or an `Empty`/`NotPresent` domain,
never matches. -/
def CookieDomain.matches (d : CookieDomain) (u : Url) : Bool :=
  match u.host with
  | some h =>
    match d with
    | .HostOnly host => host == h
    | .Suffix dom => domain_match dom h
    | .Empty => false
    | .NotPresent => false
  | none => false

/-- Modelled from the spec: `CookieDomain::host_only(request_url)` (module
`cookie_domain` is not in the sources): the canonical request host as a
`HostOnly` domain, or `NonRelativeScheme` when no host is determinable. -/
def CookieDomain.host_only (u : Url) : Except CookieError CookieDomain :=
  match u.host with
  | some h => .ok (.HostOnly h)
  | none => .error .NonRelativeScheme

/-- Modelled from the spec: `CookiePath` (module `cookie_path` is not in the
sources): a path string plus a flag recording whether it came from an
explicit Path attribute. -/
structure CookiePath where
  path : String
  from_path_attr : Bool
deriving DecidableEq, Repr

/-- The accessor `CookiePath::is_from_path_attr` used by src/cookie.rs. -/
def CookiePath.is_from_path_attr (p : CookiePath) : Bool :=
  p.from_path_attr

/-- Modelled from the spec (section 4.3): `CookiePath::parse(path_attr)`
returns the attribute value unchanged when it starts with `/`, otherwise
signals "use default". -/
def CookiePath.parse (s : String) : Option CookiePath :=
  if strBeginsWith s "/" then some ⟨s, true⟩ else none

/-- The characters of a path up to (excluding) its final `/`-delimited
segment: everything strictly before the last `/`. -/
def upToLastSlash (l : List Char) : List Char :=
  ((l.reverse.dropWhile (fun c => c ≠ '/')).drop 1).reverse

/-- Modelled from the spec (section 4.3): `CookiePath::default_path`
computes the default path of a request URL: `/` when the URL path is empty,
does not start with `/`, or has no separator past position 0; otherwise the
substring up to (excluding) the final segment, with `/` when that substring
is empty. -/
def CookiePath.default_path (u : Url) : CookiePath :=
  let p := u.path.toList
  if p.take 1 ≠ ['/'] then ⟨"/", false⟩
  else if !((p.drop 1).contains '/') then ⟨"/", false⟩
  else
    let q := upToLastSlash p
    if q.isEmpty then ⟨"/", false⟩ else ⟨String.mk q, false⟩

/-- Modelled from the spec (section 4.3): `path_match(cookie_path,
request_path)` is true iff the paths are identical, or the cookie path is a
prefix of the request path and either ends with `/` or the next request-path
character is `/`. -/
def path_match (cookie_path request_path : String) : Bool :=
  cookie_path == request_path
    || (strBeginsWith request_path cookie_path && strEndsWith cookie_path "/")
    || (strBeginsWith request_path cookie_path
          && strBeginsWith (strDrop request_path (strLen cookie_path)) "/")

/-- Modelled from the spec: `CookiePath::matches(request_url)` (module
`cookie_path` is not in the sources) applies `path_match` to the stored
cookie path and the URL path. -/
def CookiePath.matches (p : CookiePath) (u : Url) : Bool :=
  path_match p.path u.path

/-- The earliest representable instant; the spec identifies it with the
epoch (`expire()` sets `expires` to `AtUtc(epoch)`). -/
def epochInstant : Int := 0

/-- The latest representable instant, to which an out-of-range Max-Age
clamps (spec section 4.4); year 9999 in epoch seconds. -/
def maxInstant : Int := 253402300799

/-- Modelled from the spec: `CookieExpiration` (module `cookie_expiration`
is not in the sources): an absolute expiry instant (persistent) or session
end (non-persistent). -/
inductive CookieExpiration where
  | AtUtc (t : Int)
  | SessionEnd
deriving DecidableEq, Repr

/-- Modelled from the spec (section 4.4): the Max-Age conversion
`CookieExpiration::from(max_age)`: current instant plus the delta, with a
non-positive delta collapsing to the earliest representable instant and an
out-of-range large delta clamping to the latest representable instant. -/
def CookieExpiration.from_max_age (now max_age : Int) : CookieExpiration :=
  if max_age ≤ 0 then .AtUtc epochInstant
  else .AtUtc (min (now + max_age) maxInstant)

/-- Modelled from the spec (section 4.4): the Expires conversion
`CookieExpiration::from(instant)` keeps the absolute instant. -/
def CookieExpiration.from_expires (t : Int) : CookieExpiration :=
  .AtUtc t

/-- Modelled from the spec: `CookieExpiration::expires_by(instant)` (module
`cookie_expiration` is not in the sources): true iff the expiration is
`AtUtc(t)` with `t` at or before the given instant; always false for
`SessionEnd`. -/
def CookieExpiration.expires_by (e : CookieExpiration) (instant : Int) : Bool :=
  match e with
  | .AtUtc t => t ≤ instant
  | .SessionEnd => false

/-- Modelled from the spec: `CookieExpiration::is_expired` evaluates
`expires_by` at the ambient current instant, which the embedding passes
explicitly. -/
def CookieExpiration.is_expired (e : CookieExpiration) (now : Int) : Bool :=
  e.expires_by now

/-- The validated cookie record of src/cookie.rs: the parsed raw cookie plus
the resolved path, domain and expiration. -/
structure Cookie where
  raw_cookie : RawCookie
  path : CookiePath
  domain : CookieDomain
  expires : CookieExpiration
deriving DecidableEq, Repr

/-- `Cookie::matches(request_url)` from src/cookie.rs: path match, domain
match, the secure gate and the http-only gate, conjoined. -/
def Cookie.matches (c : Cookie) (request_url : Url) : Bool :=
  c.path.matches request_url
    && c.domain.matches request_url
    && (!(c.raw_cookie.secure.getD false) || is_secure request_url)
    && (!(c.raw_cookie.http_only.getD false) || is_http_scheme request_url)

/-- `Cookie::is_persistent` from src/cookie.rs. -/
def Cookie.is_persistent (c : Cookie) : Bool :=
  match c.expires with
  | .AtUtc _ => true
  | .SessionEnd => false

/-- `Cookie::expire` from src/cookie.rs: replace `expires` with
`CookieExpiration::from(0)`, i.e. the Max-Age conversion at delta 0 (the
ambient instant is passed explicitly and is irrelevant at delta 0). -/
def Cookie.expire (c : Cookie) (now : Int) : Cookie :=
  { c with expires := CookieExpiration.from_max_age now 0 }

/-- `Cookie::is_expired` from src/cookie.rs, at an explicit current
instant. -/
def Cookie.is_expired (c : Cookie) (now : Int) : Bool :=
  c.expires.is_expired now

/-- `Cookie::expires_by` from src/cookie.rs. -/
def Cookie.expires_by (c : Cookie) (instant : Int) : Bool :=
  c.expires.expires_by instant

/-- `Cookie::try_from_raw_cookie` from src/cookie.rs: the http-only scheme
check, then domain resolution, path resolution, and expiration resolution
with Max-Age taking precedence over Expires. -/
def Cookie.try_from_raw_cookie (now : Int) (raw : RawCookie) (request_url : Url) :
    Except CookieError Cookie :=
  if raw.http_only.getD false && !is_http_scheme request_url then
    .error .NonHttpScheme
  else
    match
      (match CookieDomain.try_from raw with
        | .ok (.Suffix s) =>
          if !(CookieDomain.Suffix s).matches request_url then
            .error .DomainMismatch
          else
            .ok (.Suffix s)
        | .error _ => .error .Parse
        | .ok _ => CookieDomain.host_only request_url :
        Except CookieError CookieDomain)
    with
    | .error e => .error e
    | .ok domain =>
      .ok { raw_cookie := raw,
            path :=
              match raw.path.bind CookiePath.parse with
              | some p => p
              | none => CookiePath.default_path request_url,
            domain := domain,
            expires :=
              match raw.max_age with
              | some ma => CookieExpiration.from_max_age now ma
              | none =>
                match raw.expires with
                | some t => CookieExpiration.from_expires t
                | none => CookieExpiration.SessionEnd }

/-- Modelled from the spec (section 4.1 / 4.2, public-suffix capability;
module `cookie_store` holding the check is not in the sources): after
ordinary construction, a `Suffix` domain classified as a public suffix by
the injectable predicate is rejected with `PublicSuffix` unless it equals
the request host exactly. -/
def Cookie.try_from_raw_cookie_ps (is_public_suffix : String → Bool) (now : Int)
    (raw : RawCookie) (request_url : Url) : Except CookieError Cookie :=
  match Cookie.try_from_raw_cookie now raw request_url with
  | .ok c =>
    match c.domain with
    | .Suffix s =>
      if is_public_suffix s && decide (request_url.host ≠ some s) then
        .error .PublicSuffix
      else
        .ok c
    | _ => .ok c
  | .error e => .error e

/-- A store key: (domain canonical string, path string, cookie name), per
spec section 4.5. -/
abbrev StoreKey := String × String × String

/-- Modelled from the spec (section 3): the canonical string carried inside
a cookie's domain, used as the store's domain-key; `Empty`/`NotPresent`
carry no string (they never occur in constructed cookies). -/
def CookieDomain.key_string : CookieDomain → String
  | .HostOnly h => h
  | .Suffix d => d
  | .Empty => ""
  | .NotPresent => ""

/-- The (domain-key, path-key, name) triple indexing a cookie, per spec
section 4.5. -/
def cookieKey (c : Cookie) : StoreKey :=
  (c.domain.key_string, c.path.path, c.raw_cookie.name)

/-- Modelled from the spec (section 3 / 4.5): the `CookieStore` index,
flattened from the three-level mapping to a keyed entry list; iteration
order is an implementation artifact and results are compared as sets. -/
abbrev CookieStore := List (StoreKey × Cookie)

/-- Delete every entry stored under the given key triple. -/
def CookieStore.eraseKey : CookieStore → StoreKey → CookieStore
  | [], _ => []
  | kv :: rest, k =>
    if kv.1 = k then CookieStore.eraseKey rest k else kv :: CookieStore.eraseKey rest k

/-- Modelled from the spec (section 4.5): `insert(cookie)` computes the key
triple and unconditionally overwrites any existing entry at that key. -/
def CookieStore.insert (s : CookieStore) (c : Cookie) : CookieStore :=
  (cookieKey c, c) :: CookieStore.eraseKey s (cookieKey c)

/-- Modelled from the spec (section 4.5): `get(domain, path, name)`,
exact-key lookup ignoring expiration. -/
def CookieStore.get : CookieStore → StoreKey → Option Cookie
  | [], _ => none
  | (k, c) :: rest, k0 => if k = k0 then some c else CookieStore.get rest k0

/-- Modelled from the spec (section 4.5): `remove(domain, path, name)`,
exact-key delete (the state effect; the returned value is `get`). -/
def CookieStore.remove (s : CookieStore) (k : StoreKey) : CookieStore :=
  CookieStore.eraseKey s k

/-- Modelled from the spec (section 4.5): `iter_any()`, every stored cookie
regardless of expiry. -/
def CookieStore.iter_any (s : CookieStore) : List Cookie :=
  s.map Prod.snd

/-- Modelled from the spec (section 4.5): `iter_unexpired()`, every stored
cookie not expired at the (explicit) current instant. -/
def CookieStore.iter_unexpired (s : CookieStore) (now : Int) : List Cookie :=
  (s.map Prod.snd).filter (fun c => !c.is_expired now)

/-- Modelled from the spec (section 4.5): `query(request_url)`, every stored
cookie, expired or not, whose `matches` holds. -/
def CookieStore.query (s : CookieStore) (request_url : Url) : List Cookie :=
  (s.map Prod.snd).filter (fun c => c.matches request_url)

/-- A mutating store operation (insert / remove / clear), for stating
invariants over every sequence of operations. -/
inductive StoreOp where
  | insert_op (c : Cookie)
  | remove_op (k : StoreKey)
  | clear_op
deriving Repr

/-- Apply one store operation. -/
def CookieStore.apply_op (s : CookieStore) : StoreOp → CookieStore
  | .insert_op c => CookieStore.insert s c
  | .remove_op k => CookieStore.remove s k
  | .clear_op => []

/-- Apply a sequence of store operations left to right. -/
def CookieStore.apply_ops (s : CookieStore) (ops : List StoreOp) : CookieStore :=
  ops.foldl CookieStore.apply_op s

/-- Every entry of the store is indexed under its own cookie's key triple. -/
def CookieStore.well_keyed (s : CookieStore) : Prop :=
  ∀ kv ∈ s, kv.1 = cookieKey kv.2

instance (s : CookieStore) : Decidable (CookieStore.well_keyed s) :=
  List.decidableBAll _ s

/-- Modelled from the spec (section 4.5): `from_records` /
`CookieStore::from_cookies`, folding a fallible cookie sequence into a
store: abort on the first element error, drop expired cookies when
`include_expired` is false, insert the rest. -/
def CookieStore.from_cookies_aux (now : Int) (include_expired : Bool) :
    List (Except CookieError Cookie) → CookieStore → Except CookieError CookieStore
  | [], s => .ok s
  | .error e :: _, _ => .error e
  | .ok c :: rest, s =>
    CookieStore.from_cookies_aux now include_expired rest
      (if !include_expired && c.is_expired now then s else CookieStore.insert s c)

/-- `CookieStore::from_cookies` starting from the empty store, as called by
`cookie_store_serialized::load_from` (src/cookie.rs). -/
def CookieStore.from_cookies (now : Int) (cs : List (Except CookieError Cookie))
    (include_expired : Bool) : Except CookieError CookieStore :=
  CookieStore.from_cookies_aux now include_expired cs []

/-- `cookie_store_serialized::save` (src/cookie.rs): the serialized subset
in the persistent-and-unexpired scope — every stored cookie that is not
expired and is persistent. -/
def saved_cookies (now : Int) (s : CookieStore) : List Cookie :=
  (CookieStore.iter_unexpired s now).filter (fun c => c.is_persistent)

/-- `cookie_store_serialized::save` then `load` (src/cookie.rs), with the
external textual encode/decode pair assumed mutually inverse (the structured
encoding of persisted records is an external collaborator, spec section 1)
and the trailing newline consumed by the decoder: the loaded store is
`from_cookies` over the saved subset with `include_expired = false`. -/
def load_saved (now : Int) (s : CookieStore) : Except CookieError CookieStore :=
  CookieStore.from_cookies now ((saved_cookies now s).map Except.ok) false

/-- Modelled from the spec: one attribute segment of the textual Set-Cookie
form emitted for a raw cookie by the external attribute-parser crate
(tokenizing raw Set-Cookie text is an external collaborator, spec
section 1); the textual form is modelled structurally. -/
inductive SetCookieAttr where
  | secure_attr
  | http_only_attr
  | path_attr (p : String)
  | domain_attr (d : String)
  | max_age_attr (n : Int)
  | expires_attr (t : Int)
deriving DecidableEq, Repr

/-- A boolean-flag segment is emitted iff the flag is explicitly `true`
(an explicitly-`false` flag prints the same as an absent one). -/
def flagAttr (o : Option Bool) (a : SetCookieAttr) : List SetCookieAttr :=
  if o = some true then [a] else []

/-- Modelled from the spec: the Set-Cookie string form of a raw cookie
(`RawCookie::to_string`, used by `serde_raw_cookie::serialize` in
src/cookie.rs), structurally: the name/value pair plus one segment per
present attribute. -/
def rawCookieSegments (r : RawCookie) : (String × String) × List SetCookieAttr :=
  ((r.name, r.value),
    flagAttr r.http_only .http_only_attr
      ++ flagAttr r.secure .secure_attr
      ++ (r.path.map (fun p => [SetCookieAttr.path_attr p])).getD []
      ++ (r.domain.map (fun d => [SetCookieAttr.domain_attr d])).getD []
      ++ (r.max_age.map (fun n => [SetCookieAttr.max_age_attr n])).getD []
      ++ (r.expires.map (fun t => [SetCookieAttr.expires_attr t])).getD [])

/-- Record one parsed attribute segment into a raw cookie. -/
def applyAttr (r : RawCookie) : SetCookieAttr → RawCookie
  | .secure_attr => { r with secure := some true }
  | .http_only_attr => { r with http_only := some true }
  | .path_attr p => { r with path := some p }
  | .domain_attr d => { r with domain := some d }
  | .max_age_attr n => { r with max_age := some n }
  | .expires_attr t => { r with expires := some t }

/-- Modelled from the spec: `RawCookie::from_str` (used by
`serde_raw_cookie::deserialize` in src/cookie.rs), structurally: rebuild the
raw cookie from its name/value pair and attribute segments (fallibility of
the real textual parse is kept as `Option`). -/
def parseRawSegments : (String × String) × List SetCookieAttr → Option RawCookie
  | ((n, v), attrs) =>
    some (attrs.foldl applyAttr ⟨n, v, none, none, none, none, none, none⟩)

/-- The persisted record of one cookie (spec section 6): the raw cookie in
its Set-Cookie string form alongside the structured path, domain and
expires fields. -/
structure SerializedCookie where
  raw_cookie : (String × String) × List SetCookieAttr
  path : CookiePath
  domain : CookieDomain
  expires : CookieExpiration
deriving DecidableEq, Repr

/-- Serialization of a `Cookie` (the serde derive on `Cookie` in
src/cookie.rs, with `serde_raw_cookie::serialize` for the raw cookie). -/
def serializeCookie (c : Cookie) : SerializedCookie :=
  ⟨rawCookieSegments c.raw_cookie, c.path, c.domain, c.expires⟩

/-- Deserialization of a `Cookie` (the serde derive on `Cookie` in
src/cookie.rs, with `serde_raw_cookie::deserialize` re-parsing the raw
cookie from its string form). -/
def deserializeCookie (sc : SerializedCookie) : Option Cookie :=
  (parseRawSegments sc.raw_cookie).map
    (fun raw => ⟨raw, sc.path, sc.domain, sc.expires⟩)

example :
    CookiePath.default_path ⟨"http", some "example.com", "/foo/bar/"⟩ =
      ⟨"/foo/bar", false⟩ := by decide

example :
    CookiePath.default_path ⟨"http", some "example.com", "/foo/bar"⟩ =
      ⟨"/foo", false⟩ := by decide

example :
    CookiePath.default_path ⟨"http", some "example.com", "/foo"⟩ = ⟨"/", false⟩ := by
  decide

example :
    CookiePath.default_path ⟨"http", some "example.com", "/"⟩ = ⟨"/", false⟩ := by
  decide

example : domain_match "example.com" "foo.example.com" = true := by decide

example : domain_match "example.com" "myexample.com" = false := by decide

example : domain_match "example.com" "baz.foo.example.com" = true := by decide

example : path_match "/foo" "/foo/bar" = true := by decide

example : path_match "/fo" "/foo/bar" = false := by decide

example : path_match "/foo/" "/foo/bar" = true := by decide

example :
    Cookie.try_from_raw_cookie 0
        ⟨"a", "1", some "bar.example.com", none, none, none, none, none⟩
        ⟨"http", some "foo.example.com", "/"⟩
      = .error .DomainMismatch := by decide

example :
    (Cookie.try_from_raw_cookie 0
        ⟨"a", "1", some "example.com", none, none, none, none, none⟩
        ⟨"http", some "foo.example.com", "/"⟩).map Cookie.domain
      = .ok (.Suffix "example.com") := by decide

example :
    Cookie.try_from_raw_cookie 0
        ⟨"a", "1", none, none, none, none, none, some true⟩
        ⟨"ftp", some "example.com", "/"⟩
      = .error .NonHttpScheme := by decide

example :
    (Cookie.try_from_raw_cookie 0
        ⟨"a", "1", none, none, none, none, none, none⟩
        ⟨"http", some "example.com", "/foo/bar"⟩).map Cookie.domain
      = .ok (.HostOnly "example.com") := by decide

example :
    (Cookie.try_from_raw_cookie 0
        ⟨"a", "1", some "EXAMPLE.com", none, none, none, none, none⟩
        ⟨"http", some "example.com", "/"⟩).map Cookie.domain
      = .ok (.Suffix "example.com") := by decide

example :
    (Cookie.try_from_raw_cookie 100
        ⟨"a", "1", none, none, some 60, some 7, none, none⟩
        ⟨"http", some "example.com", "/"⟩).map Cookie.expires
      = .ok (.AtUtc 160) := by decide


/-- A sample session cookie named `a` for `example.com`. -/
def wcOld : Cookie :=
  ⟨⟨"a", "old", none, none, none, none, none, none⟩,
    ⟨"/", false⟩, .HostOnly "example.com", .SessionEnd⟩

/-- A sample already-expired cookie sharing its key triple with `wcOld`. -/
def wcNew : Cookie :=
  ⟨⟨"a", "new", none, none, none, none, none, none⟩,
    ⟨"/", false⟩, .HostOnly "example.com", .AtUtc 0⟩

/-- A sample persistent unexpired cookie named `b` for `example.com`. -/
def wcOther : Cookie :=
  ⟨⟨"b", "x", none, none, none, none, none, none⟩,
    ⟨"/", false⟩, .HostOnly "example.com", .AtUtc 100⟩

/-- A sample well-keyed store holding `wcOld` and `wcOther`. -/
def wStore : CookieStore :=
  [(cookieKey wcOld, wcOld), (cookieKey wcOther, wcOther)]

lemma mem_eraseKey {s : CookieStore} {k : StoreKey} {kv : StoreKey × Cookie} :
    kv ∈ CookieStore.eraseKey s k ↔ kv ∈ s ∧ kv.1 ≠ k := by
  induction s with
  | nil => simp [CookieStore.eraseKey]
  | cons kv0 rest ih =>
    unfold CookieStore.eraseKey
    by_cases h0 : kv0.1 = k
    · simp only [if_pos h0, ih, List.mem_cons]
      constructor
      · exact fun ⟨hm, hne⟩ => ⟨Or.inr hm, hne⟩
      · rintro ⟨rfl | hm, hne⟩
        · exact absurd h0 hne
        · exact ⟨hm, hne⟩
    · simp only [if_neg h0, List.mem_cons, ih]
      constructor
      · rintro (rfl | ⟨hm, hne⟩)
        · exact ⟨Or.inl rfl, h0⟩
        · exact ⟨Or.inr hm, hne⟩
      · rintro ⟨rfl | hm, hne⟩
        · exact Or.inl rfl
        · exact Or.inr ⟨hm, hne⟩

lemma eraseKey_sublist (s : CookieStore) (k : StoreKey) :
    (CookieStore.eraseKey s k).Sublist s := by
  induction s with
  | nil => simp [CookieStore.eraseKey]
  | cons kv0 rest ih =>
    unfold CookieStore.eraseKey
    by_cases h0 : kv0.1 = k
    · simpa [if_pos h0] using ih.cons kv0
    · simpa [if_neg h0] using ih.cons₂ kv0

lemma mem_store_insert {s : CookieStore} {c : Cookie} {kv : StoreKey × Cookie} :
    kv ∈ CookieStore.insert s c ↔
      kv = (cookieKey c, c) ∨ (kv ∈ s ∧ kv.1 ≠ cookieKey c) := by
  simp [CookieStore.insert, mem_eraseKey]

lemma well_keyed_insert {s : CookieStore} {c : Cookie}
    (h : CookieStore.well_keyed s) : CookieStore.well_keyed (CookieStore.insert s c) := by
  intro kv hkv
  rcases mem_store_insert.mp hkv with rfl | ⟨hmem, _⟩
  · rfl
  · exact h kv hmem

lemma keys_insert_nodup {s : CookieStore} {c : Cookie}
    (h : (s.map Prod.fst).Nodup) :
    ((CookieStore.insert s c).map Prod.fst).Nodup := by
  unfold CookieStore.insert
  refine List.Nodup.cons ?_ ((List.Sublist.map Prod.fst (eraseKey_sublist s _)).nodup h)
  intro hmem
  rcases List.mem_map.mp hmem with ⟨kv, hkv, hfst⟩
  exact (mem_eraseKey.mp hkv).2 hfst

lemma get_eraseKey_ne (s : CookieStore) (k0 k : StoreKey) (h : k ≠ k0) :
    CookieStore.get (CookieStore.eraseKey s k0) k = CookieStore.get s k := by
  induction s with
  | nil => rfl
  | cons kv rest ih =>
    unfold CookieStore.eraseKey
    have hne2 : ¬ k0 = k := fun hc => h hc.symm
    by_cases hkv : kv.1 = k0
    · have hne : ¬ kv.1 = k := fun hc => h (hc ▸ hkv)
      simp [CookieStore.get, hkv, hne, hne2, ih]
    · by_cases hk : kv.1 = k <;> simp [CookieStore.get, hkv, hk, h, hne2, ih]

lemma get_insert_self (s : CookieStore) (c : Cookie) :
    CookieStore.get (CookieStore.insert s c) (cookieKey c) = some c := by
  simp [CookieStore.insert, CookieStore.get]

lemma get_insert_ne (s : CookieStore) (c : Cookie) (k : StoreKey)
    (hk : k ≠ cookieKey c) :
    CookieStore.get (CookieStore.insert s c) k = CookieStore.get s k := by
  have hne : ¬ cookieKey c = k := fun hc => hk hc.symm
  simp [CookieStore.insert, CookieStore.get, hne,
    get_eraseKey_ne s (cookieKey c) k hk]

lemma keys_remove_nodup {s : CookieStore} {k : StoreKey}
    (h : (s.map Prod.fst).Nodup) :
    ((CookieStore.remove s k).map Prod.fst).Nodup :=
  (List.Sublist.map Prod.fst (eraseKey_sublist s k)).nodup h

lemma apply_ops_keys_nodup (ops : List StoreOp) (s : CookieStore)
    (h : (s.map Prod.fst).Nodup) :
    ((CookieStore.apply_ops s ops).map Prod.fst).Nodup := by
  induction ops generalizing s with
  | nil => exact h
  | cons op rest ih =>
    refine ih _ ?_
    cases op with
    | insert_op c => exact keys_insert_nodup h
    | remove_op k => exact keys_remove_nodup h
    | clear_op => simp [CookieStore.apply_op]

lemma mem_iter_unexpired {s : CookieStore} {now : Int} {x : Cookie} :
    x ∈ CookieStore.iter_unexpired s now ↔
      (∃ kv ∈ s, kv.2 = x) ∧ x.is_expired now = false := by
  simp [CookieStore.iter_unexpired, List.mem_filter, List.mem_map,
    Bool.not_eq_true']

lemma mem_iter_any {s : CookieStore} {x : Cookie} :
    x ∈ CookieStore.iter_any s ↔ ∃ kv ∈ s, kv.2 = x := by
  simp [CookieStore.iter_any, List.mem_map]

lemma mem_iter_any_insert {s : CookieStore} (hwk : CookieStore.well_keyed s)
    {c x : Cookie} :
    x ∈ CookieStore.iter_any (CookieStore.insert s c) ↔
      x = c ∨ (x ∈ CookieStore.iter_any s ∧ cookieKey x ≠ cookieKey c) := by
  simp only [CookieStore.iter_any, CookieStore.insert, List.map_cons, List.mem_cons]
  constructor
  · rintro (rfl | hm)
    · exact Or.inl rfl
    · rcases List.mem_map.mp hm with ⟨kv, hkv, rfl⟩
      rcases mem_eraseKey.mp hkv with ⟨hmem, hne⟩
      refine Or.inr ⟨List.mem_map.mpr ⟨kv, hmem, rfl⟩, ?_⟩
      rw [← hwk kv hmem]
      exact hne
  · rintro (rfl | ⟨hm, hne⟩)
    · exact Or.inl rfl
    · rcases List.mem_map.mp hm with ⟨kv, hkv, rfl⟩
      refine Or.inr (List.mem_map.mpr ⟨kv, mem_eraseKey.mpr ⟨hkv, ?_⟩, rfl⟩)
      rw [hwk kv hkv]
      exact hne

lemma well_keyed_nil : CookieStore.well_keyed ([] : CookieStore) := by
  intro kv hkv
  cases hkv

lemma well_keyed_foldl_insert (l : List Cookie) (st : CookieStore)
    (h : CookieStore.well_keyed st) :
    CookieStore.well_keyed (l.foldl CookieStore.insert st) := by
  induction l generalizing st with
  | nil => exact h
  | cons c rest ih => exact ih _ (well_keyed_insert h)

lemma mem_iter_any_foldl_insert (l : List Cookie) (st : CookieStore)
    (hwk : CookieStore.well_keyed st) (hnd : (l.map cookieKey).Nodup) (x : Cookie) :
    x ∈ CookieStore.iter_any (l.foldl CookieStore.insert st) ↔
      x ∈ l ∨ (x ∈ CookieStore.iter_any st ∧ cookieKey x ∉ l.map cookieKey) := by
  induction l generalizing st with
  | nil => simp
  | cons c rest ih =>
    simp only [List.foldl_cons]
    rw [ih (CookieStore.insert st c) (well_keyed_insert hwk)
      (by simpa using hnd.of_cons)]
    have hF : cookieKey c ∉ rest.map cookieKey := by
      have := hnd
      simp only [List.map_cons, List.nodup_cons] at this
      exact this.1
    have hins := mem_iter_any_insert hwk (c := c) (x := x)
    have hK : x = c → cookieKey x ∉ rest.map cookieKey := fun h => h ▸ hF
    simp only [List.mem_cons, List.map_cons, hins]
    constructor
    · rintro (hr | ⟨hc | ⟨hst, hne⟩, hnr⟩)
      · exact Or.inl (Or.inr hr)
      · exact Or.inl (Or.inl hc)
      · exact Or.inr ⟨hst, by simp [hne, hnr]⟩
    · rintro ((rfl | hr) | ⟨hst, hn⟩)
      · exact Or.inr ⟨Or.inl rfl, hK rfl⟩
      · exact Or.inl hr
      · simp only [List.mem_cons, not_or] at hn
        exact Or.inr ⟨Or.inr ⟨hst, hn.1⟩, hn.2⟩

lemma from_cookies_aux_all_ok (now : Int) (l : List Cookie) (st : CookieStore)
    (h : ∀ c ∈ l, Cookie.is_expired c now = false) :
    CookieStore.from_cookies_aux now false (l.map Except.ok) st =
      .ok (l.foldl CookieStore.insert st) := by
  induction l generalizing st with
  | nil => rfl
  | cons c rest ih =>
    simp only [List.map_cons, CookieStore.from_cookies_aux, List.foldl_cons,
      h c (List.mem_cons_self c rest), Bool.not_false, Bool.true_and,
      if_neg (Bool.false_ne_true)]
    exact ih _ (fun x hx => h x (List.mem_cons_of_mem _ hx))

lemma saved_cookies_unexpired (now : Int) (s : CookieStore) :
    ∀ c ∈ saved_cookies now s, Cookie.is_expired c now = false := by
  intro c hc
  unfold saved_cookies at hc
  have := (List.mem_filter.mp hc).1
  exact (mem_iter_unexpired.mp this).2

lemma saved_cookies_keys_nodup (now : Int) (s : CookieStore)
    (hwk : CookieStore.well_keyed s) (hnd : (s.map Prod.fst).Nodup) :
    ((saved_cookies now s).map cookieKey).Nodup := by
  have hsub1 : (saved_cookies now s).Sublist (CookieStore.iter_unexpired s now) :=
    List.filter_sublist _
  have hsub2 : (CookieStore.iter_unexpired s now).Sublist (s.map Prod.snd) :=
    List.filter_sublist _
  have hsub : ((saved_cookies now s).map cookieKey).Sublist
      ((s.map Prod.snd).map cookieKey) :=
    List.Sublist.map cookieKey (hsub1.trans hsub2)
  refine hsub.nodup ?_
  rw [List.map_map]
  have hcongr : s.map (cookieKey ∘ Prod.snd) = s.map Prod.fst := by
    refine List.map_congr_left ?_
    intro kv hkv
    exact (hwk kv hkv).symm
  rw [hcongr]
  exact hnd

/-- C1: for every constructed Cookie and request URL, `matches(request_url)`
is true iff the cookie's path path-matches the URL's path, the cookie's
domain domain-matches the URL's host, the secure flag is unset or the scheme
is secure, and the http-only flag is unset or the scheme is HTTP-family. -/
theorem c1_matches_conjunction (c : Cookie) (u : Url) :
    Cookie.matches c u = true ↔
      (path_match c.path.path u.path = true
        ∧ CookieDomain.matches c.domain u = true
        ∧ (c.raw_cookie.secure.getD false = true → is_secure u = true)
        ∧ (c.raw_cookie.http_only.getD false = true → is_http_scheme u = true)) := by
  unfold Cookie.matches CookiePath.matches
  cases hs : c.raw_cookie.secure.getD false <;>
    cases hh : c.raw_cookie.http_only.getD false <;>
      simp [hs, hh, Bool.and_eq_true, and_assoc]

/-- C6: `expire()` sets `expires` to `AtUtc(epoch)` — the earliest
representable instant, so `is_expired` is true immediately afterwards (at
any representable current instant) — and leaves the raw cookie (name, value,
flags, raw text), path and domain unchanged. -/
theorem c6_expire (c : Cookie) (now : Int) :
    (Cookie.expire c now).expires = CookieExpiration.AtUtc epochInstant
    ∧ (0 ≤ now → Cookie.is_expired (Cookie.expire c now) now = true)
    ∧ (Cookie.expire c now).raw_cookie = c.raw_cookie
    ∧ (Cookie.expire c now).path = c.path
    ∧ (Cookie.expire c now).domain = c.domain := by
  refine ⟨?_, ?_, rfl, rfl, rfl⟩
  · simp [Cookie.expire, CookieExpiration.from_max_age]
  · intro h
    simp [Cookie.expire, Cookie.is_expired, CookieExpiration.from_max_age,
      CookieExpiration.is_expired, CookieExpiration.expires_by, epochInstant, h]

/-- Witness for C6 at a concrete session cookie and instant 5. -/
theorem c6_expire_witness :
    Cookie.is_expired
        (Cookie.expire
          ⟨⟨"a", "1", none, none, none, none, none, none⟩,
            ⟨"/", false⟩, .HostOnly "example.com", .SessionEnd⟩ 5) 5 = true :=
  (c6_expire
    ⟨⟨"a", "1", none, none, none, none, none, none⟩,
      ⟨"/", false⟩, .HostOnly "example.com", .SessionEnd⟩ 5).2.1 (by decide)

/-- C7: when the http-only flag is set and the request scheme is not
HTTP-family, construction fails with `NonHttpScheme` — unconditionally, for
every attribute set, so before domain, path and expiration resolution. -/
theorem c7_non_http_scheme (now : Int) (raw : RawCookie) (u : Url)
    (h1 : raw.http_only.getD false = true) (h2 : is_http_scheme u = false) :
    Cookie.try_from_raw_cookie now raw u = .error .NonHttpScheme := by
  unfold Cookie.try_from_raw_cookie
  simp [h1, h2]

/-- Witness for C7: an HttpOnly cookie set from an ftp URL. -/
theorem c7_non_http_scheme_witness :
    Cookie.try_from_raw_cookie 0
        ⟨"a", "1", some "bad domain", none, none, none, none, some true⟩
        ⟨"ftp", some "example.com", "/"⟩
      = .error .NonHttpScheme :=
  c7_non_http_scheme 0
    ⟨"a", "1", some "bad domain", none, none, none, none, some true⟩
    ⟨"ftp", some "example.com", "/"⟩ (by decide) (by decide)

/-- C8: `expires_by(instant)` is true iff `expires` is `AtUtc(t)` with `t`
at or before the instant, and a `SessionEnd` cookie never expires by any
instant, past or future. -/
theorem c8_expires_by (c : Cookie) (t : Int) :
    (Cookie.expires_by c t = true ↔
      ∃ t0, c.expires = CookieExpiration.AtUtc t0 ∧ t0 ≤ t)
    ∧ (c.expires = CookieExpiration.SessionEnd →
      ∀ t2 : Int, Cookie.expires_by c t2 = false) := by
  cases h : c.expires <;>
    simp [Cookie.expires_by, h, CookieExpiration.expires_by]

/-- Witness for C8 at a concrete session cookie. -/
theorem c8_expires_by_witness :
    Cookie.expires_by
        ⟨⟨"a", "1", none, none, none, none, none, none⟩,
          ⟨"/", false⟩, .HostOnly "example.com", .SessionEnd⟩ 99 = false :=
  (c8_expires_by
    ⟨⟨"a", "1", none, none, none, none, none, none⟩,
      ⟨"/", false⟩, .HostOnly "example.com", .SessionEnd⟩ 0).2 rfl 99

/-- C4: expiration precedence at construction: a present Max-Age yields the
Max-Age-derived instant regardless of any Expires attribute; otherwise a
present Expires yields `AtUtc` of that instant; otherwise `SessionEnd`. -/
theorem c4_expiration_precedence (now : Int) (raw : RawCookie) (u : Url) (c : Cookie)
    (hok : Cookie.try_from_raw_cookie now raw u = .ok c) :
    (∀ ma, raw.max_age = some ma →
      c.expires = CookieExpiration.from_max_age now ma)
    ∧ (raw.max_age = none → ∀ t, raw.expires = some t →
      c.expires = CookieExpiration.AtUtc t)
    ∧ (raw.max_age = none → raw.expires = none →
      c.expires = CookieExpiration.SessionEnd) := by
  unfold Cookie.try_from_raw_cookie at hok
  split at hok
  · cases hok
  · split at hok
    · cases hok
    · have hc := (Except.ok.inj hok).symm
      subst hc
      refine ⟨?_, ?_, ?_⟩
      · intro ma hma
        simp [hma]
      · intro hma t ht
        simp [hma, ht, CookieExpiration.from_expires]
      · intro hma ht
        simp [hma, ht]

/-- Witness for C4: Max-Age 60 wins over an Expires of instant 7 at now =
100, yielding the Max-Age-derived instant 160. -/
theorem c4_expiration_precedence_witness :
    (⟨⟨"a", "1", none, none, some 60, some 7, none, none⟩,
        ⟨"/", false⟩, .HostOnly "example.com", .AtUtc 160⟩ : Cookie).expires
      = CookieExpiration.from_max_age 100 60 :=
  (c4_expiration_precedence 100
    ⟨"a", "1", none, none, some 60, some 7, none, none⟩
    ⟨"http", some "example.com", "/"⟩
    ⟨⟨"a", "1", none, none, some 60, some 7, none, none⟩,
      ⟨"/", false⟩, .HostOnly "example.com", .AtUtc 160⟩
    (by decide)).1 60 rfl

/-- C2: domain resolution at construction (given the http-only precondition
of step 1 passes): a present non-empty Domain attribute is canonicalized and
domain-matched against the request host — mismatch fails `DomainMismatch`,
match yields a `Suffix` domain; an absent or empty Domain attribute yields
`HostOnly` of the request host, or fails `NonRelativeScheme` when no host is
determinable. -/
theorem c2_domain_resolution (now : Int) (raw : RawCookie) (u : Url)
    (hhttp : (raw.http_only.getD false && !is_http_scheme u) = false) :
    (∀ d, raw.domain = some d → ¬(d = "") →
      ((CookieDomain.Suffix (canonicalize_domain_attr d)).matches u = false →
        Cookie.try_from_raw_cookie now raw u = .error .DomainMismatch)
      ∧ ((CookieDomain.Suffix (canonicalize_domain_attr d)).matches u = true →
        ∃ c, Cookie.try_from_raw_cookie now raw u = .ok c
          ∧ c.domain = CookieDomain.Suffix (canonicalize_domain_attr d)))
    ∧ ((raw.domain = none ∨ raw.domain = some "") →
      (u.host = none →
        Cookie.try_from_raw_cookie now raw u = .error .NonRelativeScheme)
      ∧ (∀ h, u.host = some h →
        ∃ c, Cookie.try_from_raw_cookie now raw u = .ok c
          ∧ c.domain = CookieDomain.HostOnly h)) := by
  constructor
  · intro d hd hne
    have hbe : (d == "") = false := by
      simpa using hne
    constructor
    · intro hm
      unfold Cookie.try_from_raw_cookie
      simp [hhttp, CookieDomain.try_from, hd, hbe, hm]
    · intro hm
      refine ⟨⟨raw,
        (match raw.path.bind CookiePath.parse with
          | some p => p
          | none => CookiePath.default_path u),
        .Suffix (canonicalize_domain_attr d),
        (match raw.max_age with
          | some ma => CookieExpiration.from_max_age now ma
          | none =>
            match raw.expires with
            | some t => CookieExpiration.from_expires t
            | none => CookieExpiration.SessionEnd)⟩, ?_, rfl⟩
      unfold Cookie.try_from_raw_cookie
      simp [hhttp, CookieDomain.try_from, hd, hbe, hm]
  · intro hdom
    constructor
    · intro hhost
      unfold Cookie.try_from_raw_cookie
      rcases hdom with hd | hd <;>
        simp [hhttp, CookieDomain.try_from, hd, CookieDomain.host_only, hhost]
    · intro h hhost
      refine ⟨⟨raw,
        (match raw.path.bind CookiePath.parse with
          | some p => p
          | none => CookiePath.default_path u),
        .HostOnly h,
        (match raw.max_age with
          | some ma => CookieExpiration.from_max_age now ma
          | none =>
            match raw.expires with
            | some t => CookieExpiration.from_expires t
            | none => CookieExpiration.SessionEnd)⟩, ?_, rfl⟩
      unfold Cookie.try_from_raw_cookie
      rcases hdom with hd | hd <;>
        simp [hhttp, CookieDomain.try_from, hd, CookieDomain.host_only, hhost]

/-- Witness for C2: `a=1; Domain=bar.example.com` set from
`http://foo.example.com/` fails with `DomainMismatch`. -/
theorem c2_domain_resolution_witness :
    Cookie.try_from_raw_cookie 0
        ⟨"a", "1", some "bar.example.com", none, none, none, none, none⟩
        ⟨"http", some "foo.example.com", "/"⟩
      = .error .DomainMismatch :=
  ((c2_domain_resolution 0
      ⟨"a", "1", some "bar.example.com", none, none, none, none, none⟩
      ⟨"http", some "foo.example.com", "/"⟩ (by decide)).1
    "bar.example.com" rfl (by decide)).1 (by decide)

/-- Counterexample for C5 as stated: with the public-suffix capability
enabled and listing `example.com`, the attribute set `a=1;
Domain=example.com; HttpOnly` received from `ftp://example.com/` has its
canonical domain equal to the request host exactly, yet construction does
not succeed: step 1 fails with `NonHttpScheme` (and likewise a mismatching
public-suffix domain fails `DomainMismatch`, not `PublicSuffix`). -/
theorem c5_counterexample :
    canonicalize_domain_attr "example.com" = "example.com"
    ∧ (fun s => s == "example.com") (canonicalize_domain_attr "example.com") = true
    ∧ (⟨"ftp", some "example.com", "/"⟩ : Url).host
        = some (canonicalize_domain_attr "example.com")
    ∧ Cookie.try_from_raw_cookie_ps (fun s => s == "example.com") 0
        ⟨"a", "1", some "example.com", none, none, none, none, some true⟩
        ⟨"ftp", some "example.com", "/"⟩
      = .error .NonHttpScheme := by decide

/-- C5 (amended): with the public-suffix capability enabled, for an
attribute set whose explicit non-empty domain attribute canonicalizes to a
listed public suffix, and which passes the step-1 http-only check: if the
canonical domain equals the request host exactly, construction succeeds
(with that `Suffix` domain); if it domain-matches the request host but is
not equal to it, construction fails with `PublicSuffix`. -/
theorem c5_public_suffix (ps : String → Bool) (now : Int) (raw : RawCookie)
    (u : Url) (d : String)
    (hd : raw.domain = some d) (hne : ¬(d = ""))
    (hhttp : (raw.http_only.getD false && !is_http_scheme u) = false)
    (hps : ps (canonicalize_domain_attr d) = true) :
    (u.host = some (canonicalize_domain_attr d) →
      ∃ c, Cookie.try_from_raw_cookie_ps ps now raw u = .ok c
        ∧ c.domain = CookieDomain.Suffix (canonicalize_domain_attr d))
    ∧ ((CookieDomain.Suffix (canonicalize_domain_attr d)).matches u = true →
      ¬(u.host = some (canonicalize_domain_attr d)) →
      Cookie.try_from_raw_cookie_ps ps now raw u = .error .PublicSuffix) := by
  have hbe : (d == "") = false := by
    simpa using hne
  constructor
  · intro hhost
    have hm : (CookieDomain.Suffix (canonicalize_domain_attr d)).matches u = true := by
      simp [CookieDomain.matches, hhost, domain_match]
    refine ⟨⟨raw,
      (match raw.path.bind CookiePath.parse with
        | some p => p
        | none => CookiePath.default_path u),
      .Suffix (canonicalize_domain_attr d),
      (match raw.max_age with
        | some ma => CookieExpiration.from_max_age now ma
        | none =>
          match raw.expires with
          | some t => CookieExpiration.from_expires t
          | none => CookieExpiration.SessionEnd)⟩, ?_, rfl⟩
    unfold Cookie.try_from_raw_cookie_ps Cookie.try_from_raw_cookie
    simp [hhttp, CookieDomain.try_from, hd, hbe, hm, hps, hhost]
  · intro hm hhost
    unfold Cookie.try_from_raw_cookie_ps Cookie.try_from_raw_cookie
    simp [hhttp, CookieDomain.try_from, hd, hbe, hm, hps, hhost]

/-- Witness for C5 (amended): `Domain=com` (a listed public suffix) set from
`http://foo.com/` domain-matches but is not equal to the host, so
construction fails with `PublicSuffix`. -/
theorem c5_public_suffix_witness :
    Cookie.try_from_raw_cookie_ps (fun s => s == "com") 0
        ⟨"a", "1", some "com", none, none, none, none, none⟩
        ⟨"http", some "foo.com", "/"⟩
      = .error .PublicSuffix :=
  (c5_public_suffix (fun s => s == "com") 0
      ⟨"a", "1", some "com", none, none, none, none, none⟩
      ⟨"http", some "foo.com", "/"⟩ "com"
      rfl (by decide) (by decide) (by decide)).2 (by decide) (by decide)

/-- C3: `insert` keys a cookie by its (domain-key, path-key, name) triple
and unconditionally overwrites the entry at that key, leaving every other
key untouched; key uniqueness is preserved and holds after every sequence
of operations from the empty store; inserting an already-expired cookie
over an unexpired one with the same triple leaves the new entry at the key
and removes the old one from `iter_unexpired`. -/
theorem c3_insert_replacement (s : CookieStore) (c : Cookie) :
    CookieStore.get (CookieStore.insert s c) (cookieKey c) = some c
    ∧ (∀ k, k ≠ cookieKey c →
      CookieStore.get (CookieStore.insert s c) k = CookieStore.get s k)
    ∧ ((s.map Prod.fst).Nodup → ((CookieStore.insert s c).map Prod.fst).Nodup)
    ∧ (∀ ops : List StoreOp,
      ((CookieStore.apply_ops [] ops).map Prod.fst).Nodup)
    ∧ (∀ now : Int, CookieStore.well_keyed s → Cookie.is_expired c now = true →
      ∀ x ∈ CookieStore.iter_unexpired (CookieStore.insert s c) now,
        cookieKey x ≠ cookieKey c) := by
  refine ⟨get_insert_self s c, fun k hk => get_insert_ne s c k hk,
    fun h => keys_insert_nodup h,
    fun ops => apply_ops_keys_nodup ops [] (by simp),
    ?_⟩
  intro now hwk hexp x hx hkey
  rcases mem_iter_unexpired.mp hx with ⟨⟨kv, hkv, rfl⟩, hunexp⟩
  rcases mem_store_insert.mp hkv with rfl | ⟨hmem, hne⟩
  · simp only [hexp] at hunexp
    cases hunexp
  · exact hne ((hwk kv hmem).trans hkey)

/-- Witness for C3: inserting the expired `wcNew` over `wcOld` (same key)
into `wStore`: the key now holds `wcNew`, and the unexpired survivor
`wcOther` proved through the theorem to live at a different key. -/
theorem c3_insert_replacement_witness :
    CookieStore.get (CookieStore.insert wStore wcNew) (cookieKey wcNew) = some wcNew
    ∧ cookieKey wcOther ≠ cookieKey wcNew :=
  ⟨(c3_insert_replacement wStore wcNew).1,
    (c3_insert_replacement wStore wcNew).2.2.2.2 5 (by decide) (by decide)
      wcOther (by decide)⟩

/-- C9: saving with the persistent-and-unexpired scope and loading the
output (with the external encode/decode pair mutually inverse) yields a
store whose cookie set equals the saved subset, order-independently. -/
theorem c9_save_load_round_trip (now : Int) (s : CookieStore)
    (hwk : CookieStore.well_keyed s) (hnd : (s.map Prod.fst).Nodup) :
    ∃ st, load_saved now s = .ok st
      ∧ ∀ c : Cookie, (c ∈ CookieStore.iter_any st ↔ c ∈ saved_cookies now s) := by
  refine ⟨(saved_cookies now s).foldl CookieStore.insert [], ?_, ?_⟩
  · unfold load_saved CookieStore.from_cookies
    exact from_cookies_aux_all_ok now _ [] (saved_cookies_unexpired now s)
  · intro c
    rw [mem_iter_any_foldl_insert _ _ well_keyed_nil
      (saved_cookies_keys_nodup now s hwk hnd)]
    simp [CookieStore.iter_any]

/-- Witness for C9 on the sample store `wStore` at instant 5, evaluated at
the persistent cookie `wcOther`. -/
theorem c9_save_load_round_trip_witness :
    ∃ st, load_saved 5 wStore = .ok st
      ∧ (wcOther ∈ CookieStore.iter_any st ↔ wcOther ∈ saved_cookies 5 wStore) :=
  match c9_save_load_round_trip 5 wStore (by decide) (by decide) with
  | ⟨st, h1, h2⟩ => ⟨st, h1, h2 wcOther⟩

/-- Counterexample for C10 as stated: a cookie whose raw secure flag is the
explicit `some false` does not survive the round trip — the Set-Cookie
string form prints an explicitly-false flag identically to an absent one,
so re-parsing yields `none` and the decoded cookie differs from the
original. -/
theorem c10_counterexample :
    deserializeCookie (serializeCookie
        ⟨⟨"a", "1", none, none, none, none, some false, none⟩,
          ⟨"/", false⟩, .HostOnly "example.com", .SessionEnd⟩)
      ≠ some ⟨⟨"a", "1", none, none, none, none, some false, none⟩,
          ⟨"/", false⟩, .HostOnly "example.com", .SessionEnd⟩ := by decide

/-- C10 (amended): serializing a Cookie (raw cookie as its Set-Cookie
string form alongside the structured path, domain and expires fields) and
deserializing the result yields an equal Cookie, for every Cookie whose raw
secure and http-only flags are not the explicit `some false` (as holds for
every raw cookie produced by parsing, where a flag is either present or
absent). -/
theorem c10_serde_round_trip (c : Cookie)
    (hs : ¬(c.raw_cookie.secure = some false))
    (hh : ¬(c.raw_cookie.http_only = some false)) :
    deserializeCookie (serializeCookie c) = some c := by
  obtain ⟨⟨n, v, dom, p, ma, ex, sec, ho⟩, cp, cd, ce⟩ := c
  have hs2 : sec = none ∨ sec = some true := by
    rcases sec with _ | b
    · exact Or.inl rfl
    · cases b
      · exact absurd rfl hs
      · exact Or.inr rfl
  have hh2 : ho = none ∨ ho = some true := by
    rcases ho with _ | b
    · exact Or.inl rfl
    · cases b
      · exact absurd rfl hh
      · exact Or.inr rfl
  rcases hs2 with rfl | rfl <;> rcases hh2 with rfl | rfl <;>
    rcases dom with _ | dv <;> rcases p with _ | pv <;>
      rcases ma with _ | mav <;> rcases ex with _ | exv <;>
        simp [serializeCookie, deserializeCookie, rawCookieSegments,
          parseRawSegments, applyAttr, flagAttr]

/-- Witness for C10 (amended) at a concrete cookie with every attribute
present. -/
theorem c10_serde_round_trip_witness :
    deserializeCookie (serializeCookie
        ⟨⟨"a", "1", some "example.com", some "/foo", some 60, some 7, some true, some true⟩,
          ⟨"/foo", true⟩, .Suffix "example.com", .AtUtc 160⟩)
      = some ⟨⟨"a", "1", some "example.com", some "/foo", some 60, some 7, some true, some true⟩,
          ⟨"/foo", true⟩, .Suffix "example.com", .AtUtc 160⟩ :=
  c10_serde_round_trip
    ⟨⟨"a", "1", some "example.com", some "/foo", some 60, some 7, some true, some true⟩,
      ⟨"/foo", true⟩, .Suffix "example.com", .AtUtc 160⟩ (by decide) (by decide)

/-- Witness for C1: a Secure-flagged cookie matches an `https` request to
its own host and path. -/
theorem c1_matches_conjunction_witness :
    Cookie.matches
        ⟨⟨"a", "1", none, none, none, none, some true, none⟩,
          ⟨"/", false⟩, .HostOnly "example.com", .SessionEnd⟩
        ⟨"https", some "example.com", "/"⟩ = true :=
  (c1_matches_conjunction
    ⟨⟨"a", "1", none, none, none, none, some true, none⟩,
      ⟨"/", false⟩, .HostOnly "example.com", .SessionEnd⟩
    ⟨"https", some "example.com", "/"⟩).mpr (by decide)
